import Mathlib

set_option maxRecDepth 100000

/-!
Verification development for the discharge-instructions translator
repository (JavaScript).  The file shallowly embeds, in Lean, the parts of
the source that the specification's claims are about:

* the debug/fixed `TranslationService` of `src/unnamed/part_000`
  (same-language short-circuit, LibreTranslate / enhanced-dictionary /
  demo-suffix provider chain, the static bilingual dictionary with
  longest-phrase-first word-boundary replacement, and the demo suffix
  annotator);
* the production `TranslationService` of `src/js/translator.js`
  (same-language short-circuit, cache, per-language rate limiting, the
  google/microsoft/deepl/backend provider chain);
* the structuring engine `MedicalDataParser` of `src/js/medical-parser.js`
  (JSON/XML/unstructured dispatch, section-header detection, item
  segmentation, medication parsing, exact-duplicate cleanup);
* the enhanced `MedicalDataParser` of `src/unnamed/part_005`
  (pattern extraction, sentence fallback, duplicate detection by
  substring/word-overlap, final per-category cleanup).

Remote network calls (fetch) are modelled as parameters supplying the
outcome of the call; machine floats of the source are exact decimal
constants, modelled as rationals; JavaScript strings are modelled as Lean
strings (the texts at issue are ASCII or plain Unicode, where JS UTF-16
`length`/`toLowerCase` agree with Lean's `String.length`/`Char.toLower`).
-/

/-! ## JavaScript-flavoured string primitives -/

/-- Whitespace as matched by JavaScript `\s` (the ASCII part, which is all
the source's inputs use) together with NBSP. -/
def isSpaceJS (c : Char) : Bool :=
  c = ' ' || c = '\t' || c = '\n' || c = '\r' || c = '\x0b' || c = '\x0c' || c = '\u00A0'

/-- Word characters as matched by JavaScript `\w` : `[A-Za-z0-9_]`. -/
def isWordChar (c : Char) : Bool :=
  ('a' ≤ c && c ≤ 'z') || ('A' ≤ c && c ≤ 'Z') || ('0' ≤ c && c ≤ '9') || c = '_'

/-- ASCII letters, JavaScript `[a-zA-Z]`. -/
def isAsciiLetter (c : Char) : Bool :=
  ('a' ≤ c && c ≤ 'z') || ('A' ≤ c && c ≤ 'Z')

/-- ASCII digits, JavaScript `\d`. -/
def isDigitJS (c : Char) : Bool :=
  '0' ≤ c && c ≤ '9'

/-- JavaScript `String.prototype.trim` on a character list. -/
def trimL (cs : List Char) : List Char :=
  ((cs.dropWhile isSpaceJS).reverse.dropWhile isSpaceJS).reverse

/-- JavaScript `String.prototype.trim`. -/
def trimJS (s : String) : String :=
  ⟨trimL s.data⟩

/-- JavaScript `String.prototype.toLowerCase` (ASCII-faithful). -/
def toLowerStr (s : String) : String :=
  ⟨s.data.map Char.toLower⟩

/-- Case-insensitive equality of characters, as used by `/i` regexes. -/
def ciEq (a b : Char) : Bool :=
  a.toLower = b.toLower

/-- Case-insensitive prefix test on character lists. -/
def ciIsPrefix : List Char → List Char → Bool
  | [], _ => true
  | _ :: _, [] => false
  | a :: as, b :: bs => ciEq a b && ciIsPrefix as bs

/-- Split a character list at every character satisfying `p` (JavaScript
`split` on a single-character regex class: empty fields are kept). -/
def splitOnCharsL (p : Char → Bool) : List Char → List (List Char)
  | [] => [[]]
  | c :: cs =>
    let rest := splitOnCharsL p cs
    if p c then [] :: rest
    else
      match rest with
      | [] => [[c]]
      | t :: ts => (c :: t) :: ts

/-- Split a string at every character satisfying `p`, keeping empty fields. -/
def splitOnChars (p : Char → Bool) (s : String) : List String :=
  (splitOnCharsL p s.data).map fun l => ⟨l⟩

/-! ## Data model of a translation result

`translatedText` in the source is either a string or an array of strings. -/

/-- A JavaScript `string | Array<string>` text value. -/
inductive JText where
  | s (v : String)
  | arr (vs : List String)
deriving DecidableEq, Repr

/-- The result object produced by every provider: `translatedText`,
`confidence`, `service` and the (sometimes absent) `originalText`. -/
structure TranslationResult where
  translatedText : JText
  confidence : ℚ
  service : String
  originalText : Option JText
deriving DecidableEq, Repr

/-! ## The static bilingual dictionary of `src/unnamed/part_000`

`this.fallbackTranslations` from the fixed/debug `TranslationService`
(insertion order preserved, as `Object.entries` yields it; the duplicate
JS object key `visit` collapses to its first position as in JS). -/

/-- Spanish entries of `fallbackTranslations.es`. -/
def fallbackEs : List (String × String) :=
  [ ("Take medication twice daily", "Toma medicamento dos veces al día"),
    ("tylenol 1000 milligrams three times daily for pain", "tylenol 1000 miligramos tres veces al día para el dolor"),
    ("three times daily for pain", "tres veces al día para el dolor"),
    ("by mouth every 8 hours as needed for pain", "por vía oral cada 8 horas según sea necesario para el dolor"),
    ("every 8 hours as needed", "cada 8 horas según sea necesario"),
    ("as needed for pain", "según sea necesario para el dolor"),
    ("take as needed", "tomar según sea necesario"),
    ("by mouth", "por vía oral"),
    ("for pain", "para el dolor"),
    ("as needed", "según sea necesario"),
    ("every 8 hours", "cada 8 horas"),
    ("three times daily", "tres veces al día"),
    ("twice daily", "dos veces al día"),
    ("once daily", "una vez al día"),
    ("four times daily", "cuatro veces al día"),
    ("Take medication", "Toma medicamento"),
    ("Follow up with doctor", "Seguimiento con el doctor"),
    ("Return if symptoms worsen", "Regrese si los síntomas empeoran"),
    ("Call your doctor", "Llama a tu doctor"),
    ("Go to emergency room", "Ve a la sala de emergencias"),
    ("with food", "con comida"),
    ("before meals", "antes de las comidas"),
    ("after meals", "después de las comidas"),
    ("at bedtime", "al acostarse"),
    ("on empty stomach", "con el estómago vacío"),
    ("do not crush", "no triturar"),
    ("do not chew", "no masticar"),
    ("swallow whole", "tragar entero"),
    ("tylenol", "tylenol"),
    ("ibuprofen", "ibuprofeno"),
    ("aspirin", "aspirina"),
    ("acetaminophen", "acetaminofén"),
    ("milligrams", "miligramos"),
    ("mg", "mg"),
    ("tablets", "tabletas"),
    ("capsules", "cápsulas"),
    ("pills", "pastillas"),
    ("medication", "medicamento"),
    ("medicine", "medicina"),
    ("prescription", "receta médica"),
    ("dose", "dosis"),
    ("dosage", "dosificación"),
    ("pain", "dolor"),
    ("fever", "fiebre"),
    ("headache", "dolor de cabeza"),
    ("nausea", "náusea"),
    ("dizziness", "mareo"),
    ("chest pain", "dolor en el pecho"),
    ("shortness of breath", "falta de aire"),
    ("swelling", "hinchazón"),
    ("rash", "sarpullido"),
    ("infection", "infección"),
    ("bleeding", "sangrado"),
    ("doctor", "doctor"),
    ("physician", "médico"),
    ("nurse", "enfermera"),
    ("pharmacist", "farmacéutico"),
    ("hospital", "hospital"),
    ("clinic", "clínica"),
    ("emergency room", "sala de emergencias"),
    ("pharmacy", "farmacia"),
    ("appointment", "cita"),
    ("visit", "visita"),
    ("hours", "horas"),
    ("days", "días"),
    ("weeks", "semanas"),
    ("months", "meses"),
    ("minutes", "minutos"),
    ("morning", "mañana"),
    ("afternoon", "tarde"),
    ("evening", "noche"),
    ("night", "noche"),
    ("daily", "diario"),
    ("weekly", "semanal"),
    ("monthly", "mensual"),
    ("take", "toma"),
    ("swallow", "traga"),
    ("chew", "mastica"),
    ("dissolve", "disuelve"),
    ("apply", "aplica"),
    ("insert", "inserta"),
    ("inject", "inyecta"),
    ("call", "llama"),
    ("contact", "contacta"),
    ("return", "regresa"),
    ("schedule", "programa"),
    ("continue", "continúa"),
    ("stop", "para"),
    ("avoid", "evita"),
    ("limit", "limita"),
    ("increase", "aumenta"),
    ("decrease", "disminuye"),
    ("and", "y"),
    ("or", "o"),
    ("but", "pero"),
    ("if", "si"),
    ("when", "cuando"),
    ("until", "hasta"),
    ("before", "antes"),
    ("after", "después"),
    ("during", "durante"),
    ("with", "con"),
    ("without", "sin"),
    ("for", "para"),
    ("from", "de"),
    ("to", "a"),
    ("in", "en"),
    ("on", "en"),
    ("at", "en") ]

/-- French entries of `fallbackTranslations.fr`. -/
def fallbackFr : List (String × String) :=
  [ ("Take medication", "Prendre des médicaments"),
    ("medication", "médicament"),
    ("doctor", "médecin"),
    ("appointment", "rendez-vous"),
    ("Follow up", "Suivi"),
    ("Rest", "Repos"),
    ("Return if symptoms worsen", "Revenir si les symptômes s\x27aggravent") ]

/-- `this.fallbackTranslations[targetLang] || {}` of `part_000`. -/
def fallbackTranslations (targetLang : String) : List (String × String) :=
  if targetLang = "es" then fallbackEs
  else if targetLang = "fr" then fallbackFr
  else []

/-! ## Word-boundary replacement

The source builds `new RegExp("\\b" + escapeRegex(english) + "\\b", "gi")`
and replaces every occurrence.  Since `escapeRegex` makes the phrase a
literal, the regex is: word boundary, the literal phrase
(case-insensitively), word boundary.  We implement exactly that scan:
left-to-right, non-overlapping, continuing in the original text after each
match, with `\b` meaning a `\w`/non-`\w` transition. -/

/-- Word-character test on an optional (possibly absent) character; the
absent side of a string edge counts as a non-word character, as for
JavaScript `\b`. -/
def owc : Option Char → Bool
  | some c => isWordChar c
  | none => false

/-- One step of the global word-boundary replace: the literal phrase is
`p0 :: ps` (it is nonempty in every use), `rep` the replacement, `prev` the
character just before the current position in the original text.  Every
step consumes at least one character, so the fuel (initially the text
length) never runs out. -/
def replaceWBGo (p0 : Char) (ps rep : List Char) :
    Nat → Option Char → List Char → List Char
  | 0, _, cs => cs
  | fuel + 1, prev, cs =>
    match cs with
    | [] => []
    | c :: rest =>
      let afterL := rest.drop ps.length
      let lastM := (c :: rest.take ps.length).getLast?
      let bBefore := owc prev ≠ owc (some c)
      let bAfter := owc lastM ≠ owc afterL.head?
      if ciIsPrefix (p0 :: ps) cs && bBefore && bAfter then
        rep ++ replaceWBGo p0 ps rep fuel lastM afterL
      else
        c :: replaceWBGo p0 ps rep fuel (some c) rest

/-- JavaScript `s.replace(new RegExp("\\b"+escaped+"\\b","gi"), rep)`;
an empty pattern never occurs in the dictionaries, and is the identity. -/
def replaceWB (pat rep s : String) : String :=
  match pat.data with
  | [] => s
  | p0 :: ps => ⟨replaceWBGo p0 ps rep.data s.data.length none s.data⟩

/-! ## `part_000` : the enhanced-fallback and demo providers -/

/-- Stable insertion step: a later entry goes after every earlier entry of
at least its length (only a strictly longer new entry moves ahead). -/
def insertLenDesc (x : String × String) :
    List (String × String) → List (String × String)
  | [] => [x]
  | y :: ys => if y.1.length < x.1.length then x :: y :: ys else y :: insertLenDesc x ys

/-- JavaScript's stable `sort((a, b) => b[0].length - a[0].length)` :
dictionary entries ordered by source-phrase length, longest first, ties in
insertion order (computed as a stable insertion sort, which yields the
same list as any stable sort under this comparator). -/
def sortedEntries (dict : List (String × String)) : List (String × String) :=
  dict.foldl (fun acc x => insertLenDesc x acc) []

/-- Translate a single string through the sorted dictionary: each entry is
applied in turn as a global case-insensitive word-boundary replacement
(`translated = translated.replace(exactRegex, foreign)`). -/
def applyFallbackDict (dict : List (String × String)) (textItem : String) : String :=
  (sortedEntries dict).foldl (fun translated e => replaceWB e.1 e.2 translated) textItem

/-- `translateWithEnhancedFallback(text, targetLang)` of `part_000` :
never throws, returns confidence 0.6 and the dictionary-substituted text
(the untranslated original when nothing matched). -/
def translateWithEnhancedFallback (text : JText) (targetLang : String) : TranslationResult :=
  let dict := fallbackTranslations targetLang
  match text with
  | .s v => ⟨.s (applyFallbackDict dict v), 6/10, "Enhanced Fallback Translation", none⟩
  | .arr vs => ⟨.arr (vs.map (applyFallbackDict dict)), 6/10, "Enhanced Fallback Translation", none⟩

/-- The demo-mode language-indicator table of `translateWithDemo`. -/
def demoSuffixes : List (String × String) :=
  [ ("es", " (en español)"),
    ("fr", " (en français)"),
    ("de", " (auf Deutsch)"),
    ("it", " (in italiano)"),
    ("pt", " (em português)"),
    ("zh", " (中文)"),
    ("ja", " (日本語)"),
    ("ko", " (한국어)"),
    ("ar", " (بالعربية)"),
    ("hi", " (हिंदी में)") ]

/-- First-match association lookup (`Map.get` / object indexing). -/
def getA {α : Type} : List (String × α) → String → Option α
  | [], _ => none
  | (k0, v0) :: rest, k => if k0 = k then some v0 else getA rest k

/-- `translateWithDemo(text, targetLang)` of `part_000` (`part_001` is
identical up to the 1-second `setTimeout`): appends the language indicator,
`translations[targetLang] || " (in " + targetLang + ")"`, to every string
and reports confidence 0.85 and service `Demo Mode`. -/
def translateWithDemo (text : JText) (targetLang : String) : TranslationResult :=
  let suffix := (getA demoSuffixes targetLang).getD (" (in " ++ targetLang ++ ")")
  match text with
  | .s v => ⟨.s (v ++ suffix), 85/100, "Demo Mode", some text⟩
  | .arr vs => ⟨.arr (vs.map (· ++ suffix)), 85/100, "Demo Mode", some text⟩

/-! ## `part_000` : the provider chain of `translate` -/

/-- The `for (let i = 0; ...) try { return await methods[i]() } catch ...`
loop: walk the method outcomes, return the first success together with the
number of methods invoked; record the last error message as the loop does
implicitly via `catch`. -/
def chainRunE : List (Except String TranslationResult) → Nat → Option String →
    Option TranslationResult × Nat × Option String
  | [], n, le => (none, n, le)
  | .ok r :: _, n, le => (some r, n + 1, le)
  | .error e :: rest, n, _ => chainRunE rest (n + 1) (some e)

/-- The method loop of `part_000.translate` followed by its terminal
`return this.translateWithDemo(text, targetLang)` when every method threw:
yields the produced result and the number of methods invoked. -/
def runMethodsP000 (methods : List (Except String TranslationResult))
    (text : JText) (targetLang : String) : TranslationResult × Nat :=
  match chainRunE methods 0 none with
  | (some r, n, _) => (r, n)
  | (none, n, _) => (translateWithDemo text targetLang, n)

/-- `translate(text, targetLang, sourceLang)` of `part_000`.  The
LibreTranslate method performs network requests, so its outcome is a
parameter (`Except.error` = the method threw); the enhanced-fallback and
demo methods are the pure computations above, which never throw.  The
returned `Nat` counts invoked methods; the `Except` result mirrors that the
JS promise could in principle reject (no code path of this function does). -/
def translateP000 (libre : Except String TranslationResult) (text : JText)
    (targetLang sourceLang : String) : Except String TranslationResult × Nat :=
  if targetLang = sourceLang then
    (.ok ⟨text, 1, "none", some text⟩, 0)
  else
    let methods := [libre,
      .ok (translateWithEnhancedFallback text targetLang),
      .ok (translateWithDemo text targetLang)]
    let out := runMethodsP000 methods text targetLang
    (.ok out.1, out.2)

/-! ## `src/js/translator.js` : the production service

Network providers (`translateWithGoogle` / `Microsoft` / `DeepL` /
`Backend`) perform `fetch` calls; each one's outcome for the requested text
is a parameter (`Except.error` = the call threw).  A provider is in the
chain only when its credential is configured (a nonempty key, as JS
truthiness of the key string). -/

/-- The relevant configuration of the service constructor. -/
structure TJConfig where
  googleKey : String
  microsoftKey : String
  deeplKey : String
  apiEndpoint : String
deriving DecidableEq, Repr

/-- Outcomes of the four remote providers for one request. -/
structure TJProviders where
  google : Except String TranslationResult
  microsoft : Except String TranslationResult
  deepl : Except String TranslationResult
  backend : Except String TranslationResult

/-- The mutable service state: the unbounded result cache and the
per-language rate-limiter map (`Map` modelled as an association list with
JavaScript `Map.set` update-in-place-or-append semantics). -/
structure TJState where
  cache : List (String × TranslationResult)
  rl : List (String × Nat)
deriving DecidableEq, Repr

/-- JavaScript `Map.prototype.set`: replace in place, else append. -/
def setA {α : Type} : List (String × α) → String → α → List (String × α)
  | [], k, v => [(k, v)]
  | (k0, v0) :: rest, k, v =>
    if k0 = k then (k0, v) :: rest else (k0, v0) :: setA rest k v

/-- `JSON.stringify` of a string (quote and escape). -/
def jsonQuote (s : String) : String :=
  let esc : Char → String := fun c =>
    if c = '"' then "\\\""
    else if c = '\\' then "\\\\"
    else if c = '\n' then "\\n"
    else if c = '\r' then "\\r"
    else if c = '\t' then "\\t"
    else if c = '\x08' then "\\b"
    else if c = '\x0c' then "\\f"
    else if c < ' ' then "\\u00" ++ String.mk (Nat.toDigits 16 c.toNat)
    else String.singleton c
  "\"" ++ String.join (s.data.map esc) ++ "\""

/-- `JSON.stringify(text)` for the cache key. -/
def stringifyJText : JText → String
  | .s v => jsonQuote v
  | .arr vs => "[" ++ String.intercalate "," (vs.map jsonQuote) ++ "]"

/-- `isRateLimited(language)`: a recorded timestamp exists for
`"rate_limit_" + language` and `Date.now() - lastRequest < 1000`. -/
def isRateLimitedTJ (rl : List (String × Nat)) (now : Nat) (language : String) : Bool :=
  match getA rl ("rate_limit_" ++ language) with
  | none => false
  | some lastRequest => (now : Int) - (lastRequest : Int) < 1000

/-- The ordered list of provider attempts actually in the chain:
`google` when `apiKeys.google` is truthy, then `microsoft`, then `deepl`,
then the backend when `apiEndpoint` is truthy. -/
def enabledAttempts (cfg : TJConfig) (provs : TJProviders) :
    List (Except String TranslationResult) :=
  (if cfg.googleKey ≠ "" then [provs.google] else []) ++
  (if cfg.microsoftKey ≠ "" then [provs.microsoft] else []) ++
  (if cfg.deeplKey ≠ "" then [provs.deepl] else []) ++
  (if cfg.apiEndpoint ≠ "" then [provs.backend] else [])

/-- The cache key `sourceLang + "-" + targetLang + "-" + JSON.stringify(text)`. -/
def cacheKeyTJ (text : JText) (targetLang sourceLang : String) : String :=
  sourceLang ++ "-" ++ targetLang ++ "-" ++ stringifyJText text

/-- `translate(text, targetLang, sourceLang)` of `src/js/translator.js`:
same-language short-circuit, then cache lookup, then the rate-limit check
(throwing inside the window), then the provider chain; on success the
result is cached and the rate-limit timestamp updated, and with no result
the all-providers-failed error is thrown.  Returns the outcome, the new
state, and the number of providers invoked. -/
def translateTJ (cfg : TJConfig) (provs : TJProviders) (now : Nat)
    (st : TJState) (text : JText) (targetLang sourceLang : String) :
    Except String TranslationResult × TJState × Nat :=
  if targetLang = sourceLang then
    (.ok ⟨text, 1, "none", some text⟩, st, 0)
  else
    match getA st.cache (cacheKeyTJ text targetLang sourceLang) with
    | some r => (.ok r, st, 0)
    | none =>
      if isRateLimitedTJ st.rl now targetLang then
        (.error "Rate limit exceeded. Please wait before making another request.", st, 0)
      else
        match chainRunE (enabledAttempts cfg provs) 0 none with
        | (some r, n, _) =>
          (.ok r,
           ⟨setA st.cache (cacheKeyTJ text targetLang sourceLang) r,
            setA st.rl ("rate_limit_" ++ targetLang) now⟩,
           n)
        | (none, n, le) =>
          (.error ("Translation failed: " ++ le.getD "All translation services unavailable"), st, n)

/-! ## `JSON.parse` validity (for `isJsonString` of `medical-parser.js`)

`isJsonString(str)` returns whether `JSON.parse(str)` succeeds.  We model
it with a recursive-descent recogniser of the strict JSON grammar
(ECMA-404, which is what `JSON.parse` accepts: double-quoted strings, no
trailing commas, no comments, strict number syntax). -/

/-- JSON insignificant whitespace. -/
def jWs (c : Char) : Bool :=
  c = ' ' || c = '\t' || c = '\n' || c = '\r'

/-- Drop leading JSON whitespace. -/
def skipW (cs : List Char) : List Char :=
  cs.dropWhile jWs

/-- Hexadecimal digit. -/
def isHexDigit (c : Char) : Bool :=
  isDigitJS c || ('a' ≤ c && c ≤ 'f') || ('A' ≤ c && c ≤ 'F')

/-- Recognise the remainder of a JSON string after its opening quote. -/
def jStr : List Char → Option (List Char)
  | [] => none
  | c :: rest =>
    if c = '"' then some rest
    else if c = '\\' then
      match rest with
      | [] => none
      | e :: rest2 =>
        if e = '"' || e = '\\' || e = '/' || e = 'b' || e = 'f' ||
           e = 'n' || e = 'r' || e = 't' then jStr rest2
        else if e = 'u' then
          match rest2 with
          | h1 :: h2 :: h3 :: h4 :: rest3 =>
            if isHexDigit h1 && isHexDigit h2 && isHexDigit h3 && isHexDigit h4 then
              jStr rest3
            else none
          | _ => none
        else none
    else if c.toNat < 32 then none
    else jStr rest

/-- Recognise the digits of a JSON integer part after an optional sign:
`0` or a nonzero digit followed by digits. -/
def jInt : List Char → Option (List Char)
  | [] => none
  | c :: rest =>
    if c = '0' then some rest
    else if isDigitJS c then some (rest.dropWhile isDigitJS)
    else none

/-- Recognise the optional fraction part. -/
def jFrac (cs : List Char) : Option (List Char) :=
  match cs with
  | '.' :: rest =>
    match rest with
    | d :: _ => if isDigitJS d then some (rest.dropWhile isDigitJS) else none
    | [] => none
  | _ => some cs

/-- Recognise the optional exponent part. -/
def jExp (cs : List Char) : Option (List Char) :=
  match cs with
  | e :: rest =>
    if e = 'e' || e = 'E' then
      let rest2 := match rest with
        | s :: r2 => if s = '+' || s = '-' then r2 else rest
        | [] => rest
      match rest2 with
      | d :: _ => if isDigitJS d then some (rest2.dropWhile isDigitJS) else none
      | [] => none
    else some cs
  | [] => some cs

/-- Recognise a JSON number. -/
def jNum (cs : List Char) : Option (List Char) :=
  let cs1 := match cs with
    | '-' :: rest => rest
    | _ => cs
  match jInt cs1 with
  | none => none
  | some cs2 =>
    match jFrac cs2 with
    | none => none
    | some cs3 => jExp cs3

/-- Expect a literal keyword tail (for `true` / `false` / `null`). -/
def jKeyword : List Char → List Char → Option (List Char)
  | [], cs => some cs
  | k :: ks, c :: cs => if c = k then jKeyword ks cs else none
  | _ :: _, [] => none

mutual

/-- Recognise one JSON value (fuel-bounded recursive descent); the fuel is
always at least the remaining input length plus one, so it never runs out
on inputs `JSON.parse` accepts. -/
def jVal : Nat → List Char → Option (List Char)
  | 0, _ => none
  | fuel + 1, cs =>
    match cs with
    | [] => none
    | c :: rest =>
      if c = '\x7b' then
        match skipW rest with
        | '\x7d' :: r2 => some r2
        | cs2 => jMembers fuel cs2
      else if c = '[' then
        match skipW rest with
        | ']' :: r2 => some r2
        | cs2 => jElems fuel cs2
      else if c = '"' then jStr rest
      else if c = 't' then jKeyword "rue".data rest
      else if c = 'f' then jKeyword "alse".data rest
      else if c = 'n' then jKeyword "ull".data rest
      else jNum cs

/-- Recognise the nonempty member list of a JSON object. -/
def jMembers : Nat → List Char → Option (List Char)
  | 0, _ => none
  | fuel + 1, cs =>
    match cs with
    | '"' :: rest =>
      match jStr rest with
      | none => none
      | some r1 =>
        match skipW r1 with
        | ':' :: r2 =>
          match jVal fuel (skipW r2) with
          | none => none
          | some r3 =>
            match skipW r3 with
            | ',' :: r4 => jMembers fuel (skipW r4)
            | '\x7d' :: r4 => some r4
            | _ => none
        | _ => none
    | _ => none

/-- Recognise the nonempty element list of a JSON array. -/
def jElems : Nat → List Char → Option (List Char)
  | 0, _ => none
  | fuel + 1, cs =>
    match jVal fuel cs with
    | none => none
    | some r1 =>
      match skipW r1 with
      | ',' :: r2 => jElems fuel (skipW r2)
      | ']' :: r2 => some r2
      | _ => none

end

/-- Whether `JSON.parse` accepts the string. -/
def jsonValid (s : String) : Bool :=
  match jVal (2 * s.length + 4) (skipW s.data) with
  | some rest => skipW rest = []
  | none => false

/-- `isJsonString(str)` of `src/js/medical-parser.js`. -/
def isJsonString (str : String) : Bool :=
  jsonValid str

/-- `isXmlString(str)` of `src/js/medical-parser.js`:
`str.trim().startsWith('<') && str.trim().endsWith('>')`. -/
def isXmlString (str : String) : Bool :=
  match (trimJS str).data, (trimJS str).data.getLast? with
  | '<' :: _, some '>' => true
  | _, _ => false

/-! ## A small backtracking regex engine

`medical-parser.js` drives its parsing with JavaScript regexes.  Every
quantifier in those patterns is applied to a single character class, so the
patterns are represented with the constructors below and matched with
JavaScript's backtracking order: alternatives left to right, lazy
quantifiers shortest first, greedy quantifiers longest first, first overall
success wins.  Literals are matched case-insensitively (all the embedded
patterns carry the `/i` flag; the one that does not contains no letters).
Captures record the consumed original characters. -/

/-- Patterns: `eps` (empty), `eos` (`$`), `wb` (`\b`), `cls` (one char of a
class), `lit` (literal, case-insensitive), `seq`, `alt`, `optG` (greedy
`?`), `plusL`/`plusG`/`starL`/`starG` (lazy/greedy `+`/`*` over a class)
and `grp` (numbered capture). -/
inductive RX where
  | eps
  | eos
  | wb
  | cls (p : Char → Bool)
  | lit (s : List Char)
  | seq (a b : RX)
  | alt (a b : RX)
  | optG (a : RX)
  | plusL (p : Char → Bool)
  | plusG (p : Char → Bool)
  | starL (p : Char → Bool)
  | starG (p : Char → Bool)
  | grp (i : Nat) (a : RX)

/-- Captured groups: number paired with consumed characters. -/
abbrev RXGroups := List (Nat × List Char)

/-- Candidate continuation points after consuming 1, 2, … characters of a
class run: each entry is the last consumed character and the remainder. -/
def runCands (p : Char → Bool) : List Char → List (Option Char × List Char)
  | [] => []
  | c :: cs => if p c then (some c, cs) :: runCands p cs else []

/-- Try candidates in order, returning the first success. -/
def tryCands (k : Option Char → List Char → Option (RXGroups × List Char)) :
    List (Option Char × List Char) → Option (RXGroups × List Char)
  | [] => none
  | (pv, rest) :: more =>
    match k pv rest with
    | some r => some r
    | none => tryCands k more

/-- The previous character after consuming a literal. -/
def litPrev (len : Nat) (pv : Option Char) (cs : List Char) : Option Char :=
  match (cs.take len).getLast? with
  | some c => some c
  | none => pv

/-- CPS matcher: match `re` against `cs` (previous character `pv`, captured
groups `g`), then run the continuation `k` on the rest.  Tries
possibilities in JavaScript's backtracking order and returns the first
success. -/
def rxM : RX → Option Char → List Char → RXGroups →
    (Option Char → List Char → RXGroups → Option (RXGroups × List Char)) →
    Option (RXGroups × List Char)
  | .eps, pv, cs, g, k => k pv cs g
  | .eos, pv, cs, g, k =>
    match cs with
    | [] => k pv [] g
    | _ :: _ => none
  | .wb, pv, cs, g, k =>
    if owc pv ≠ owc cs.head? then k pv cs g else none
  | .cls p, _pv, cs, g, k =>
    match cs with
    | [] => none
    | c :: rest => if p c then k (some c) rest g else none
  | .lit s, pv, cs, g, k =>
    if ciIsPrefix s cs then k (litPrev s.length pv cs) (cs.drop s.length) g else none
  | .seq a b, pv, cs, g, k =>
    rxM a pv cs g fun pv2 cs2 g2 => rxM b pv2 cs2 g2 k
  | .alt a b, pv, cs, g, k =>
    match rxM a pv cs g k with
    | some r => some r
    | none => rxM b pv cs g k
  | .optG a, pv, cs, g, k =>
    match rxM a pv cs g k with
    | some r => some r
    | none => k pv cs g
  | .plusL p, _pv, cs, g, k =>
    tryCands (fun pv2 rest => k pv2 rest g) (runCands p cs)
  | .plusG p, _pv, cs, g, k =>
    tryCands (fun pv2 rest => k pv2 rest g) (runCands p cs).reverse
  | .starL p, pv, cs, g, k =>
    match k pv cs g with
    | some r => some r
    | none => tryCands (fun pv2 rest => k pv2 rest g) (runCands p cs)
  | .starG p, pv, cs, g, k =>
    match tryCands (fun pv2 rest => k pv2 rest g) (runCands p cs).reverse with
    | some r => some r
    | none => k pv cs g
  | .grp i a, pv, cs, g, k =>
    rxM a pv cs g fun pv2 cs2 g2 => k pv2 cs2 (g2 ++ [(i, cs.take (cs.length - cs2.length))])

/-- Anchored (`^…`) match attempt at the start of the text: on success,
the captured groups and the unconsumed remainder. -/
def rxMatchAtStart (re : RX) (cs : List Char) : Option (RXGroups × List Char) :=
  rxM re none cs [] fun _ rest g => some (g, rest)

/-- Unanchored leftmost search from a position with previous character
`pv`: on success, groups, the suffix where the match starts, and the
remainder after the match. -/
def rxSearchGo (re : RX) (pv : Option Char) (cs : List Char) :
    Option (RXGroups × List Char × List Char) :=
  match rxM re pv cs [] (fun _ rest g => some (g, rest)) with
  | some (g, rest) => some (g, cs, rest)
  | none =>
    match cs with
    | [] => none
    | c :: cs2 => rxSearchGo re (some c) cs2

/-- `re.exec(s)`-style leftmost search. -/
def rxSearch (re : RX) (s : String) : Option (RXGroups × List Char × List Char) :=
  rxSearchGo re none s.data

/-- `re.test(s)`. -/
def rxTest (re : RX) (s : String) : Bool :=
  (rxSearch re s).isSome

/-- The whole matched text (`match[0]`) of a search result. -/
def rxWhole (r : RXGroups × List Char × List Char) : String :=
  ⟨r.2.1.take (r.2.1.length - r.2.2.length)⟩

/-- Captured group `i` (`match[i]`), `none` when the group did not
participate; a group matched several times keeps its last value. -/
def rxGroup (r : RXGroups × List Char × List Char) (i : Nat) : Option String :=
  ((r.1.reverse.find? fun p => p.1 = i).map fun p => ⟨p.2⟩)

/-- Shorthand: a literal pattern from a (lowercase) string. -/
def rlit (s : String) : RX := .lit s.data

/-- Shorthand: `\s+` (greedy, as written in the sources). -/
def wsPlus : RX := .plusG isSpaceJS

/-- Shorthand: `\s*` (greedy). -/
def wsStar : RX := .starG isSpaceJS

/-- Shorthand: `:?`. -/
def optColon : RX := .optG (rlit ":")

/-- Shorthand: `s?` (an optional plural `s`). -/
def optS : RX := .optG (rlit "s")

/-- JavaScript `.` (anything but a line terminator). -/
def dotP (c : Char) : Bool :=
  c ≠ '\n' && c ≠ '\r' && c ≠ '\u2028' && c ≠ '\u2029'

/-- Right-nested alternation of a list of patterns. -/
def altL : List RX → RX
  | [] => .eps
  | [r] => r
  | r :: rest => .alt r (altL rest)

/-- Sequence of a list of patterns. -/
def seqL : List RX → RX
  | [] => .eps
  | [r] => r
  | r :: rest => .seq r (seqL rest)

/-! ## `src/js/medical-parser.js` : the structuring engine

The record is modelled down to the six claim categories.  The enrichment
sweeps `extractMedicalDetails` (vital signs, allergies, demographics,
dates) write only to fields outside these six (`vitalSigns`, `allergies`,
`patientInfo`, `dischargeDate`, `admissionDate`), as does the `allergies`
section of `addToSection`; those fields, and the `metadata` /
`prioritizedInstructions` extras of `enhanceStructuredData`, are therefore
not carried in the modelled record. -/

/-- The six primary categories of a DischargeRecord. -/
structure RecordMP where
  diagnoses : List String
  medications : List String
  instructions : List String
  returnReasons : List String
  followUp : List String
  procedures : List String
deriving DecidableEq, Repr

/-- The record every parse starts from. -/
def emptyRecordMP : RecordMP :=
  ⟨[], [], [], [], [], []⟩

/-- The sections of `initializeSectionPatterns` (in `Object.entries`
order); the `allergies` section exists in the source and is kept so that
section detection is faithful, though it writes outside the modelled
record. -/
inductive MSection where
  | diagnoses
  | medications
  | instructions
  | returnReasons
  | followUp
  | procedures
  | allergies
deriving DecidableEq, Repr

/-- `/^(?:primary\s+)?diagnos[ie]s?:?/i` and friends: the full
section-header pattern table of `initializeSectionPatterns`, all matched
against the lowercased line, anchored at its start. -/
def sectionPatterns : List (MSection × List RX) :=
  [ (.diagnoses,
      [ seqL [.optG (.seq (rlit "primary") wsPlus), rlit "diagnos",
              .cls (fun c => c = 'i' || c = 'e'), optS, optColon],
        seqL [rlit "condition", optS, optColon],
        seqL [rlit "medical", wsPlus, rlit "condition", optS, optColon],
        seqL [rlit "problem", optS, optColon],
        seqL [altL [rlit "primary", rlit "secondary"], wsPlus, rlit "diagnos"] ]),
    (.medications,
      [ seqL [rlit "medication", optS, optColon],
        seqL [rlit "prescription", optS, optColon],
        seqL [rlit "drug", optS, optColon],
        seqL [rlit "medicine", optS, optColon],
        seqL [rlit "rx", optColon],
        seqL [rlit "home", wsPlus, rlit "medication", optS, optColon],
        seqL [rlit "discharge", wsPlus, rlit "medication", optS, optColon] ]),
    (.instructions,
      [ seqL [.optG (.seq (rlit "discharge") wsPlus), rlit "instruction", optS, optColon],
        seqL [rlit "care", wsPlus, rlit "instruction", optS, optColon],
        seqL [rlit "home", wsPlus, rlit "care", optColon],
        seqL [rlit "patient", wsPlus, rlit "instruction", optS, optColon],
        seqL [rlit "follow", wsPlus, rlit "these", wsPlus, rlit "instruction", optS, optColon],
        seqL [rlit "general", wsPlus, rlit "instruction", optS, optColon] ]),
    (.returnReasons,
      [ seqL [.optG (seqL [rlit "return", wsPlus, rlit "to", wsPlus]),
              altL [rlit "hospital", rlit "er", rlit "emergency"], optColon],
        seqL [rlit "when", wsPlus, rlit "to", wsPlus, rlit "return", optColon],
        seqL [.optG (.seq (rlit "seek") wsPlus), .optG (.seq (rlit "immediate") wsPlus),
              .optG (.seq (rlit "medical") wsPlus), altL [rlit "care", rlit "attention"], optColon],
        seqL [rlit "warning", wsPlus, rlit "sign", optS, optColon],
        seqL [rlit "red", wsPlus, rlit "flag", optS, optColon],
        seqL [rlit "call", wsPlus, altL [rlit "911", rlit "doctor", rlit "physician"], optColon],
        seqL [rlit "emergency", wsPlus, rlit "sign", optS, optColon] ]),
    (.followUp,
      [ seqL [rlit "follow", wsStar, rlit "up", optColon],
        seqL [rlit "appointment", optS, optColon],
        seqL [rlit "next", wsPlus, rlit "visit", optColon],
        seqL [rlit "see", wsPlus, .optG (.seq (rlit "your") wsPlus),
              altL [rlit "doctor", rlit "physician"], optColon],
        seqL [rlit "schedule", wsPlus, rlit "appointment", optColon],
        seqL [rlit "follow", .cls dotP, rlit "up", wsPlus, rlit "care", optColon] ]),
    (.procedures,
      [ seqL [rlit "procedure", optS, optColon],
        seqL [rlit "treatment", optS, optColon],
        seqL [rlit "intervention", optS, optColon],
        seqL [rlit "operation", optS, optColon],
        seqL [rlit "surgery", optColon],
        seqL [rlit "test", optS, wsPlus, rlit "performed", optColon] ]),
    (.allergies,
      [ seqL [rlit "allergie", optS, optColon],
        seqL [rlit "drug", wsPlus, rlit "allergie", optS, optColon],
        seqL [rlit "allergic", wsPlus, rlit "to", optColon],
        seqL [rlit "adverse", wsPlus, rlit "reaction", optS, optColon] ])
  ]

/-- `detectSectionType(lowerLine)`: the first section one of whose
patterns tests true on the lowercased line. -/
def detectSectionType (lowerLine : String) : Option MSection :=
  (sectionPatterns.find? fun sp =>
    sp.2.any fun re => (rxMatchAtStart re lowerLine.data).isSome).map (·.1)

/-- `extractContentAfterHeader(line)`: the trimmed text after the first
colon, when the colon exists and is not the last character. -/
def extractContentAfterHeader (line : String) : Option String :=
  match line.data.findIdx? (· = ':') with
  | some i => if i + 1 < line.data.length then some (trimJS ⟨line.data.drop (i + 1)⟩) else none
  | none => none

/-- The delimiter class of `splitIntoItems`:
`[;,\n•\-\*\d+\.\s*]` (literally `; , newline • - * digits + . whitespace`,
with `*` listed twice). -/
def itemDelim (c : Char) : Bool :=
  c = ';' || c = ',' || c = '\n' || c = '•' || c = '-' || c = '*' ||
  c = '+' || c = '.' || isDigitJS c || isSpaceJS c

/-- `splitIntoItems(text)`: split on the delimiter class, trim, and keep
items longer than 3 characters. -/
def splitIntoItems (text : String) : List String :=
  ((splitOnChars itemDelim text).map trimJS).filter fun i => i.length > 3

/-! ### The medication regex templates of `initializeMedicationPatterns` -/

/-- `[a-zA-Z\s]`. -/
def alphaSpace (c : Char) : Bool :=
  isAsciiLetter c || isSpaceJS c

/-- `[^,.-]`. -/
def notCDD (c : Char) : Bool :=
  c ≠ ',' && c ≠ '.' && c ≠ '-'

/-- `[-–—]` (hyphen, en dash, em dash). -/
def dashP (c : Char) : Bool :=
  c = '-' || c = '–' || c = '—'

/-- `(?:mg|mcg|g|ml|units?)`. -/
def unitAlt : RX :=
  altL [rlit "mg", rlit "mcg", rlit "g", rlit "ml", .seq (rlit "unit") optS]

/-- `\d+\.?\d*\s*(?:mg|mcg|g|ml|units?)` (the dosage capture body). -/
def dosageBody : RX :=
  seqL [.plusG isDigitJS, .optG (rlit "."), .starG isDigitJS, wsStar, unitAlt]

/-- `/^([a-zA-Z\s]+?)\s+(\d+\.?\d*\s*(?:mg|mcg|g|ml|units?))\s+([^,.-]+?)\s*[-–—]?\s*(.*)$/i`. -/
def medP1 : RX :=
  seqL [.grp 1 (.plusL alphaSpace), wsPlus, .grp 2 dosageBody, wsPlus,
        .grp 3 (.plusL notCDD), wsStar, .optG (.cls dashP), wsStar,
        .grp 4 (.starG dotP), .eos]

/-- `/^([a-zA-Z\s]+?)\s+(\d+\.?\d*\s*(?:mg|mcg|g|ml|units?))\s*[-–—]\s*(.*)$/i`. -/
def medP2 : RX :=
  seqL [.grp 1 (.plusL alphaSpace), wsPlus, .grp 2 dosageBody, wsStar,
        .cls dashP, wsStar, .grp 3 (.starG dotP), .eos]

/-- `/^([a-zA-Z\s]+?)\s+([^,.-]+?daily|twice\s+daily|once\s+daily|as\s+needed)(.*)$/i`. -/
def medP3 : RX :=
  seqL [.grp 1 (.plusL alphaSpace), wsPlus,
        .grp 2 (altL [.seq (.plusL notCDD) (rlit "daily"),
                      seqL [rlit "twice", wsPlus, rlit "daily"],
                      seqL [rlit "once", wsPlus, rlit "daily"],
                      seqL [rlit "as", wsPlus, rlit "needed"]]),
        .grp 3 (.starG dotP), .eos]

/-- `/^([a-zA-Z\s]+?)\s+(\d+\.?\d*\s*(?:mg|mcg|g|ml|units?))(.*)$/i`. -/
def medP4 : RX :=
  seqL [.grp 1 (.plusL alphaSpace), wsPlus, .grp 2 dosageBody,
        .grp 3 (.starG dotP), .eos]

/-- The medication-indicator tests of `looksMedication`. -/
def medIndicators : List RX :=
  [ seqL [.plusG isDigitJS, wsStar,
          altL [rlit "mg", rlit "mcg", rlit "g", rlit "ml",
                .seq (rlit "tablet") optS, .seq (rlit "pill") optS,
                .seq (rlit "capsule") optS]],
    seqL [.wb, altL [rlit "take", rlit "tablet", rlit "pill", rlit "capsule",
                     rlit "liquid", rlit "injection", rlit "cream", rlit "ointment"], .wb],
    seqL [.wb, altL [rlit "daily", rlit "twice", rlit "once", rlit "every",
                     .seq (rlit "hour") optS, .seq (rlit "time") optS,
                     rlit "bid", rlit "tid", rlit "qid", rlit "prn"], .wb],
    seqL [.wb, altL [rlit "lisinopril", rlit "metformin", rlit "atorvastatin",
                     rlit "amlodipine", rlit "levothyroxine", rlit "ibuprofen",
                     rlit "acetaminophen"], .wb] ]

/-- `looksMedication(text)`. -/
def looksMedication (text : String) : Bool :=
  medIndicators.any fun re => rxTest re text

/-- Captured group `i` of an anchored match. -/
def rxGroupA (g : RXGroups) (i : Nat) : Option String :=
  (g.reverse.find? fun p => p.1 = i).map fun p => ⟨p.2⟩

/-- Try the medication templates in order, returning the first match. -/
def tryMedPatterns : List RX → String → Option (RXGroups × List Char)
  | [], _ => none
  | re :: rest, t =>
    match rxMatchAtStart re t.data with
    | some r => some r
    | none => tryMedPatterns rest t

/-- `parseSingleMedication(text)`: apply the templates in order, rebuild
`name [dosage] [frequency] [- instructions]` from groups 1–4 (absent or
empty groups are skipped, as JS truthiness does); with no template match,
keep the text verbatim when it looks like a medication, else discard. -/
def parseSingleMedication (text : String) : Option String :=
  match tryMedPatterns [medP1, medP2, medP3, medP4] text with
  | some r =>
    let name := ((rxGroupA r.1 1).map trimJS).getD ""
    let dosage := ((rxGroupA r.1 2).map trimJS).getD ""
    let frequency := ((rxGroupA r.1 3).map trimJS).getD ""
    let instrs := ((rxGroupA r.1 4).map trimJS).getD ""
    let r1 := name
    let r2 := if dosage ≠ "" then r1 ++ " " ++ dosage else r1
    let r3 := if frequency ≠ "" then r2 ++ " " ++ frequency else r2
    let r4 := if instrs ≠ "" then r3 ++ " - " ++ instrs else r3
    some r4
  | none => if looksMedication text then some text else none

/-- `parseMedications(text)`: split on `;`/`,`/newline, parse each
fragment, keep truthy results, and fall back to the whole text when
nothing parsed. -/
def parseMedications (text : String) : List String :=
  let lines := ((splitOnChars (fun c => c = ';' || c = ',' || c = '\n') text).map trimJS).filter (· ≠ "")
  let medications := lines.foldl (fun acc line =>
    match parseSingleMedication line with
    | some m => if m ≠ "" then acc ++ [m] else acc
    | none => acc) []
  if medications ≠ [] then medications else [text]

/-- The procedure-indicator tests of `parseProcedures`. -/
def procIndicators : List RX :=
  [ seqL [.wb, altL [rlit "surgery", rlit "operation", rlit "procedure",
                     rlit "intervention", rlit "treatment"], .wb],
    seqL [.wb, altL [rlit "x-ray", rlit "ct scan", rlit "mri", rlit "ultrasound",
                     rlit "ekg", rlit "echocardiogram"], .wb],
    seqL [.wb, altL [rlit "biopsy", rlit "endoscopy", rlit "colonoscopy",
                     rlit "bronchoscopy"], .wb],
    seqL [.wb, altL [rlit "catheterization", rlit "angioplasty", rlit "stent",
                     rlit "bypass"], .wb] ]

/-- `parseProcedures(text)`. -/
def parseProcedures (text : String) : List String :=
  let items := splitIntoItems text
  let procs := items.filter fun line => procIndicators.any fun re => rxTest re line
  if procs ≠ [] then procs else [text]

/-! ### `enhanceMedication` and `enhanceStructuredData` -/

/-- `/(\d+\.?\d*)\s*(mg|mcg|g|ml|units?)\b/i`. -/
def dosRX : RX :=
  seqL [.grp 1 (seqL [.plusG isDigitJS, .optG (rlit "."), .starG isDigitJS]),
        wsStar, .grp 2 unitAlt, .wb]

/-- `/\b(once|twice|three times?|four times?|\d+\s*times?)\s*(daily|per day|a day)\b/i`. -/
def freqRX : RX :=
  seqL [.wb,
        .grp 1 (altL [rlit "once", rlit "twice",
                      .seq (rlit "three time") optS,
                      .seq (rlit "four time") optS,
                      seqL [.plusG isDigitJS, wsStar, rlit "time", optS]]),
        wsStar,
        .grp 2 (altL [rlit "daily", rlit "per day", rlit "a day"]), .wb]

/-- `/\b(morning|evening|bedtime|with meals?|before meals?|after meals?)\b/i`. -/
def timRX : RX :=
  seqL [.wb,
        .grp 1 (altL [rlit "morning", rlit "evening", rlit "bedtime",
                      .seq (rlit "with meal") optS,
                      .seq (rlit "before meal") optS,
                      .seq (rlit "after meal") optS]), .wb]

/-- `enhanceMedication(medication)`: when a dosage, frequency or timing
pattern is present, rebuild `name dosage frequency timing` (the name being
the `/^([^0-9]+?)(?=\d|$)/` leading non-digit run); otherwise keep the
entry unchanged. -/
def enhanceMedication (medication : String) : String :=
  let dos := rxSearch dosRX medication
  let freq := rxSearch freqRX medication
  let tim := rxSearch timRX medication
  if dos.isSome || freq.isSome || tim.isSome then
    let parts1 : List String :=
      match medication.data.takeWhile (fun c => !isDigitJS c) with
      | [] => []
      | run => [trimJS ⟨run⟩]
    let parts2 := parts1 ++ (match dos with
      | some r => [((rxGroup r 1).getD "") ++ ((rxGroup r 2).getD "")]
      | none => [])
    let parts3 := parts2 ++ (match freq with
      | some r => [rxWhole r]
      | none => [])
    let parts4 := parts3 ++ (match tim with
      | some r => [rxWhole r]
      | none => [])
    if parts4.length > 1 then String.intercalate " " parts4 else medication
  else medication

/-- The JS `.filter((item, index, arr) => arr.indexOf(item) === index)`:
keep the first occurrence of every value, drop later exact duplicates. -/
def keepFirsts (l : List String) : List String :=
  l.foldl (fun acc x => if x ∈ acc then acc else acc ++ [x]) []

/-- The per-category cleanup of `enhanceStructuredData`: keep nonempty
trimmed strings, trim them, drop exact duplicates. -/
def cleanCat (l : List String) : List String :=
  keepFirsts ((l.filter fun s => trimJS s ≠ "").map trimJS)

/-- `enhanceStructuredData(result)` restricted to the modelled record:
every array field is cleaned, then medications are re-normalized with
`enhanceMedication` (the added `prioritizedInstructions` and `metadata`
fields live outside the modelled record). -/
def enhanceStructuredData (r : RecordMP) : RecordMP :=
  { diagnoses := cleanCat r.diagnoses,
    medications := (cleanCat r.medications).map enhanceMedication,
    instructions := cleanCat r.instructions,
    returnReasons := cleanCat r.returnReasons,
    followUp := cleanCat r.followUp,
    procedures := cleanCat r.procedures }

/-! ### `parseUnstructuredText` and the dispatcher -/

/-- `addToSection(result, section, buffer)`. -/
def addToSection (r : RecordMP) (sec : MSection) (buffer : List String) : RecordMP :=
  let content := trimJS (String.intercalate " " buffer)
  if content = "" then r
  else
    match sec with
    | .medications => { r with medications := r.medications ++ parseMedications content }
    | .procedures => { r with procedures := r.procedures ++ parseProcedures content }
    | .diagnoses => { r with diagnoses := r.diagnoses ++ splitIntoItems content }
    | .instructions => { r with instructions := r.instructions ++ splitIntoItems content }
    | .returnReasons => { r with returnReasons := r.returnReasons ++ splitIntoItems content }
    | .followUp => { r with followUp := r.followUp ++ splitIntoItems content }
    | .allergies => r

/-- Split on `/\r?\n/`. -/
def splitLinesRNL : List Char → List (List Char)
  | [] => [[]]
  | '\r' :: '\n' :: rest => [] :: splitLinesRNL rest
  | '\n' :: rest => [] :: splitLinesRNL rest
  | c :: rest =>
    match splitLinesRNL rest with
    | [] => [[c]]
    | t :: ts => (c :: t) :: ts

/-- The line-scanning state of `parseUnstructuredText`. -/
structure UState where
  cur : MSection
  buf : List String
  acc : RecordMP

/-- One iteration of the line loop: a freshly detected section flushes the
buffer into the previous section and seeds the new buffer with same-line
content after the colon; any other line is buffered. -/
def unstructuredStep (st : UState) (line : String) : UState :=
  let lower := toLowerStr line
  match detectSectionType lower with
  | some s =>
    if s ≠ st.cur then
      let acc2 := if st.buf ≠ [] then addToSection st.acc st.cur st.buf else st.acc
      let buf2 :=
        match extractContentAfterHeader line with
        | some c => if c ≠ "" then [c] else []
        | none => []
      ⟨s, buf2, acc2⟩
    else ⟨st.cur, st.buf ++ [line], st.acc⟩
  | none => ⟨st.cur, st.buf ++ [line], st.acc⟩

/-- `parseUnstructuredText(text)`: split into trimmed nonempty lines, scan
with the section cursor (default `instructions`), flush the final buffer,
and post-process with `enhanceStructuredData`.  (`extractMedicalDetails`
runs between the two in the source but writes only to fields outside the
modelled record.) -/
def parseUnstructuredText (text : String) : RecordMP :=
  let lines := ((splitLinesRNL text.data).map fun l => trimJS ⟨l⟩).filter fun l => l.length > 0
  let st := lines.foldl unstructuredStep ⟨.instructions, [], emptyRecordMP⟩
  let r := if st.buf ≠ [] then addToSection st.acc st.cur st.buf else st.acc
  enhanceStructuredData r

/-- `parseDischargeData(rawData)` of `src/js/medical-parser.js`: valid
JSON goes to `parseStructuredData(JSON.parse(rawData))`, XML-shaped text
to `parseXmlData`, anything else to `parseUnstructuredText`.  The JSON and
XML branches depend on the host `JSON.parse` object representation and on
the DOM (`DOMParser`, `querySelectorAll`), so they are parameters here;
every claim settled below concerns how the dispatcher routes inputs and
what the unstructured branch produces. -/
def parseDischargeDataMP (jsonBranch xmlBranch : String → RecordMP) (rawData : String) : RecordMP :=
  if isJsonString rawData then jsonBranch rawData
  else if isXmlString rawData then xmlBranch rawData
  else parseUnstructuredText rawData

/-- `hay.includes(needle)` on character lists. -/
def containsSub (needle : List Char) : List Char → Bool
  | [] => needle.isEmpty
  | c :: rest => needle.isPrefixOf (c :: rest) || containsSub needle rest

/-- Case-insensitive substring test (`a.toLowerCase()` occurs inside
`b.toLowerCase()`), the containment used by the deduplication claims. -/
def substrCI (needle hay : String) : Bool :=
  containsSub (toLowerStr needle).data (toLowerStr hay).data

/-! ## `src/unnamed/part_005` : the enhanced parser

Its record carries the same six category lists (plus the raw text, which
no cleanup touches), so `RecordMP` is reused.  The pattern-extraction
phase walks the `matchAll` tables; its output record is abstracted as a
parameter `patternPhase`, because the per-category caps claimed about this
parser are enforced by the final cleanup on whatever that phase produced
(the theorems below quantify over every possible phase output, hence in
particular over the real one). -/

/-- Split at every maximal run of characters satisfying `p` (JavaScript
`split` on `/[c]+/`-style regexes: a maximal run is one delimiter, so runs
collapse and string edges yield empty fields); `inRun` records whether the
previous character belonged to the current run. -/
def splitRunsGo (p : Char → Bool) (inRun : Bool) : List Char → List (List Char)
  | [] => [[]]
  | c :: rest =>
    if p c then
      if inRun then splitRunsGo p true rest
      else [] :: splitRunsGo p true rest
    else
      match splitRunsGo p false rest with
      | [] => [[c]]
      | t :: ts => (c :: t) :: ts

/-- Split a list at maximal runs of characters satisfying `p`. -/
def splitRunsL (p : Char → Bool) (cs : List Char) : List (List Char) :=
  splitRunsGo p false cs

/-- `str.split(/\s+/)`. -/
def splitWsRuns (s : String) : List String :=
  (splitRunsL isSpaceJS s.data).map fun l => ⟨l⟩

/-- `calculateSimilarity(str1, str2)` of `part_005`: word-overlap ratio
`|words1 ∩ words2| / max(|words1|, |words2|)` (the intersection keeps
`words1` multiplicity, as `filter`/`includes` does). -/
def calculateSimilarity005 (str1 str2 : String) : ℚ :=
  let words1 := splitWsRuns str1
  let words2 := splitWsRuns str2
  let intersection := words1.filter fun w => words2.contains w
  (intersection.length : ℚ) / (max words1.length words2.length : ℚ)

/-- `isDuplicate(newText, existingArray)` of `part_005`: case-insensitive
containment either way, or word-overlap similarity above 0.8. -/
def isDuplicate005 (newText : String) (existingArray : List String) : Bool :=
  let newLower := toLowerStr newText
  existingArray.any fun existing =>
    let exLower := toLowerStr existing
    containsSub newLower.data exLower.data ||
    containsSub exLower.data newLower.data ||
    decide (calculateSimilarity005 newLower exLower > 8/10)

/-- The insertion gate of the pattern-extraction loop: an item enters a
category only when it is long enough, not already present, and not a
near-duplicate of an existing item. -/
def admitItem005 (cleanedText : String) (category : List String) : Bool :=
  cleanedText.length > 5 && !category.contains cleanedText &&
  !isDuplicate005 cleanedText category

/-- `/\w{3,}/.test(sentence)`. -/
def hasSubstantialWord (s : String) : Bool :=
  rxTest (seqL [.cls isWordChar, .cls isWordChar, .cls isWordChar]) s

/-- `charAt(0).toUpperCase() + slice(1).toLowerCase()`. -/
def capFirstLowerRest (s : String) : String :=
  match s.data with
  | [] => ""
  | c :: rest => ⟨c.toUpper :: rest.map Char.toLower⟩

/-- `extractSentencesAsMedicalInstructions(text)` of `part_005`: split on
sentence terminators, trim, keep fragments longer than 10 characters with
a 3+ letter word, capitalize, cap at 8. -/
def extractSentences005 (text : String) : List String :=
  (((((splitRunsL (fun c => c = '.' || c = '!' || c = '?') text.data).map
      fun l => trimJS ⟨l⟩).filter
      fun s => s.length > 10).filter hasSubstantialWord).map
      capFirstLowerRest).take 8

/-- `/^(and|or|but|the|a|an)$/i.test(item.trim())`. -/
def isFiller (item : String) : Bool :=
  let t := toLowerStr (trimJS item)
  t = "and" || t = "or" || t = "but" || t = "the" || t = "a" || t = "an"

/-- The per-category cleanup of `cleanupResult`: keep truthy items longer
than 5 characters that are not bare filler words, capped at 10. -/
def cleanupCat005 (l : List String) : List String :=
  ((l.filter fun item => item.length > 5).filter fun item => !isFiller item).take 10

/-- `cleanupResult(result)` of `part_005`, applied to every array field. -/
def cleanupResult005 (r : RecordMP) : RecordMP :=
  { diagnoses := cleanupCat005 r.diagnoses,
    medications := cleanupCat005 r.medications,
    instructions := cleanupCat005 r.instructions,
    returnReasons := cleanupCat005 r.returnReasons,
    followUp := cleanupCat005 r.followUp,
    procedures := cleanupCat005 r.procedures }

/-- `isEmptyResult(result)` of `part_005`. -/
def isEmptyResult005 (r : RecordMP) : Bool :=
  r.diagnoses.isEmpty && r.medications.isEmpty && r.instructions.isEmpty &&
  r.followUp.isEmpty && r.returnReasons.isEmpty && r.procedures.isEmpty

/-- `parseDischargeData(rawData)` of `part_005`: falsy input returns the
empty record untouched; otherwise the trimmed text goes through the
pattern-extraction phase (abstracted as `patternPhase`), the sentence
fallback fills `instructions` when nothing was extracted, and
`cleanupResult` finishes. -/
def parse005 (patternPhase : String → RecordMP) (rawData : String) : RecordMP :=
  if rawData = "" then emptyRecordMP
  else
    let cleanedData := trimJS rawData
    let r1 := patternPhase cleanedData
    let r2 :=
      if isEmptyResult005 r1 then
        { r1 with instructions := extractSentences005 cleanedData }
      else r1
    cleanupResult005 r2

/-! ## Helper lemmas -/

/-- A chain whose every method threw produces no result. -/
theorem chainRunE_all_errors (errs : List String) (n : Nat) (le : Option String) :
    (chainRunE (errs.map Except.error) n le).1 = none := by
  induction errs generalizing n le with
  | nil => rfl
  | cons e es ih => simpa [chainRunE] using ih (n + 1) (some e)

/-- Looking up the key just set returns the set value. -/
theorem getA_setA_self {α : Type} (m : List (String × α)) (k : String) (v : α) :
    getA (setA m k v) k = some v := by
  induction m with
  | nil => simp [setA, getA]
  | cons p rest ih =>
    obtain ⟨k0, v0⟩ := p
    by_cases hk : k0 = k
    · simp [setA, getA, hk]
    · simp [setA, getA, hk, ih]

/-- The first-occurrence filter produces a duplicate-free list. -/
theorem keepFirsts_nodup (l : List String) : (keepFirsts l).Nodup := by
  suffices h : ∀ acc : List String, acc.Nodup →
      (l.foldl (fun acc x => if x ∈ acc then acc else acc ++ [x]) acc).Nodup by
    exact h [] List.nodup_nil
  induction l with
  | nil => intro acc h; exact h
  | cons x xs ih =>
    intro acc h
    simp only [List.foldl_cons]
    by_cases hx : x ∈ acc
    · rw [if_pos hx]
      exact ih acc h
    · rw [if_neg hx]
      refine ih _ (List.Nodup.append h (List.nodup_singleton x) ?_)
      intro a ha hax
      rw [List.mem_singleton] at hax
      exact hx (hax ▸ ha)

/-- Every entry of the stable insertion is the new one or an old one. -/
theorem mem_insertLenDesc {z x : String × String} {l : List (String × String)}
    (h : z ∈ insertLenDesc x l) : z = x ∨ z ∈ l := by
  induction l with
  | nil => simpa [insertLenDesc] using h
  | cons y ys ih =>
    simp only [insertLenDesc] at h
    by_cases hxy : y.1.length < x.1.length
    · rw [if_pos hxy] at h
      rcases List.mem_cons.mp h with h1 | h1
      · exact Or.inl h1
      · exact Or.inr h1
    · rw [if_neg hxy] at h
      rcases List.mem_cons.mp h with h1 | h1
      · exact Or.inr (List.mem_cons.mpr (Or.inl h1))
      · rcases ih h1 with h2 | h2
        · exact Or.inl h2
        · exact Or.inr (List.mem_cons.mpr (Or.inr h2))

/-- Inserting into a length-descending list keeps it length-descending. -/
theorem pairwise_insertLenDesc (x : String × String) (l : List (String × String))
    (h : l.Pairwise fun a b => b.1.length ≤ a.1.length) :
    (insertLenDesc x l).Pairwise fun a b => b.1.length ≤ a.1.length := by
  induction l with
  | nil => simp [insertLenDesc]
  | cons y ys ih =>
    rw [List.pairwise_cons] at h
    obtain ⟨hy, hys⟩ := h
    simp only [insertLenDesc]
    by_cases hxy : y.1.length < x.1.length
    · rw [if_pos hxy, List.pairwise_cons]
      refine ⟨?_, List.pairwise_cons.mpr ⟨hy, hys⟩⟩
      intro z hz
      rcases List.mem_cons.mp hz with h1 | h1
      · subst h1; omega
      · have := hy z h1; omega
    · rw [if_neg hxy, List.pairwise_cons]
      refine ⟨?_, ih hys⟩
      intro z hz
      rcases mem_insertLenDesc hz with h2 | h2
      · subst h2; omega
      · exact hy z h2

/-- The stable sort of the enhanced fallback is length-descending. -/
theorem sortedEntries_pairwise (dict : List (String × String)) :
    (sortedEntries dict).Pairwise fun a b => b.1.length ≤ a.1.length := by
  suffices h : ∀ acc : List (String × String),
      (acc.Pairwise fun a b => b.1.length ≤ a.1.length) →
      ((dict.foldl (fun acc x => insertLenDesc x acc) acc).Pairwise
        fun a b => b.1.length ≤ a.1.length) by
    exact h [] (by simp)
  induction dict with
  | nil => intro acc h; exact h
  | cons d ds ih =>
    intro acc h
    simp only [List.foldl_cons]
    exact ih _ (pairwise_insertLenDesc d acc h)

/-- The invariant `cleanupResult` of `part_005` establishes per category:
at most 10 items, each longer than 5 characters and not a filler word. -/
def catProps (l : List String) : Prop :=
  l.length ≤ 10 ∧ ∀ i ∈ l, i.length > 5 ∧ isFiller i = false

/-- `cleanupCat005` establishes the invariant on any input list. -/
theorem cleanupCat005_props (l : List String) : catProps (cleanupCat005 l) := by
  constructor
  · exact List.length_take_le 10 _
  · intro i hi
    have h1 : i ∈ (l.filter fun item => item.length > 5).filter fun item => !isFiller item :=
      List.mem_of_mem_take hi
    simp only [List.mem_filter, Bool.not_eq_true'] at h1
    obtain ⟨⟨_, h2⟩, h3⟩ := h1
    exact ⟨by simpa using h2, h3⟩

/-- Stub handler for the JSON branch of the dispatcher (used only to
instantiate closed statements whose input never reaches that branch). -/
def stubJsonBranch : String → RecordMP := fun _ => emptyRecordMP

/-- Stub handler for the XML branch of the dispatcher, distinguishable
from every unstructured-parse output relevant below. -/
def stubXmlBranch : String → RecordMP :=
  fun _ => { emptyRecordMP with diagnoses := ["stub xml result"] }

/-! ## The claims -/

/-- C1: with `targetLang = sourceLang`, both `translate` implementations
return the input unchanged with confidence 1.0 and service tag `none`,
invoke zero providers, and (for the production service) leave the state
untouched. -/
theorem c1_same_language_short_circuit (libre : Except String TranslationResult)
    (cfg : TJConfig) (provs : TJProviders) (now : Nat) (st : TJState)
    (text : JText) (lang : String) :
    translateP000 libre text lang lang = (.ok ⟨text, 1, "none", some text⟩, 0) ∧
    translateTJ cfg provs now st text lang lang = (.ok ⟨text, 1, "none", some text⟩, st, 0) := by
  constructor
  · simp [translateP000]
  · simp [translateTJ]

/-- C2 (amended): the script service's `translate` always resolves with a
result for a genuine translation request, and when every method of its
chain throws, the returned value is the demo suffix annotation rather than
an exception; the production service of `translator.js` (which has no
terminal fallback) is the subject of the counterexample. -/
theorem c2_amended_terminal_fallback (libre : Except String TranslationResult)
    (text : JText) (targetLang sourceLang : String) (h : targetLang ≠ sourceLang) :
    (∃ r, (translateP000 libre text targetLang sourceLang).1 = Except.ok r) ∧
    ∀ errs : List String,
      (runMethodsP000 (errs.map Except.error) text targetLang).1 =
        translateWithDemo text targetLang := by
  constructor
  · refine ⟨(runMethodsP000 [libre,
      .ok (translateWithEnhancedFallback text targetLang),
      .ok (translateWithDemo text targetLang)] text targetLang).1, ?_⟩
    simp [translateP000, h]
  · intro errs
    have hall := chainRunE_all_errors errs 0 none
    unfold runMethodsP000
    rcases hc : chainRunE (errs.map Except.error) 0 none with ⟨o, n, le⟩
    rw [hc] at hall
    simp only at hall
    subst hall
    simp

/-- C2 witness: a concrete request with the remote method down resolves,
and a concretely all-failing chain yields the demo annotation. -/
theorem c2_witness :
    (("es" : String) ≠ "en") ∧
    (∃ r, (translateP000 (.error "down") (.s "Rest") "es" "en").1 = Except.ok r) ∧
    (runMethodsP000 (["e1", "e2", "e3"].map Except.error) (.s "Rest") "xx").1 =
      translateWithDemo (.s "Rest") "xx" :=
  ⟨by decide,
   (c2_amended_terminal_fallback (.error "down") (.s "Rest") "es" "en" (by decide)).1,
   (c2_amended_terminal_fallback (.error "down") (.s "Rest") "xx" "en" (by decide)).2 ["e1", "e2", "e3"]⟩

/-- C2 counterexample: the production `translate` of `translator.js`
throws its all-providers-failed error — with no provider configured, and
with a configured provider whose call fails. -/
theorem c2_counterexample :
    translateTJ ⟨"", "", "", ""⟩ ⟨.error "g", .error "m", .error "d", .error "b"⟩ 0
        ⟨[], []⟩ (.s "Rest") "es" "en"
      = (.error "Translation failed: All translation services unavailable", ⟨[], []⟩, 0) ∧
    translateTJ ⟨"G", "", "", ""⟩ ⟨.error "boom", .error "m", .error "d", .error "b"⟩ 0
        ⟨[], []⟩ (.s "Rest") "es" "en"
      = (.error "Translation failed: boom", ⟨[], []⟩, 1) := by
  constructor
  · rfl
  · rfl

/-- C3 counterexample: at target `"xx"` the terminal demo fallback does
append `" (in xx)"` and raises nothing, but its confidence is 0.85, which
violates the claimed bound `≤ 0.5`. -/
theorem c3_counterexample :
    translateWithDemo (.s "Take aspirin") "xx" =
      ⟨.s "Take aspirin (in xx)", 85/100, "Demo Mode", some (.s "Take aspirin")⟩ ∧
    ¬ (translateWithDemo (.s "Take aspirin") "xx").confidence ≤ 1/2 := by
  constructor
  · rfl
  · have hc : (translateWithDemo (.s "Take aspirin") "xx").confidence = 85/100 := rfl
    rw [hc]
    norm_num

/-- C3 (amended): for a target language outside the demo table the
terminal fallback appends `" (in lang)"` to every string and reports
confidence 0.85 and service `Demo Mode`. -/
theorem c3_amended_suffix_fallback (targetLang : String) (t : String) (texts : List String)
    (h : getA demoSuffixes targetLang = none) :
    translateWithDemo (.s t) targetLang =
      ⟨.s (t ++ (" (in " ++ targetLang ++ ")")), 85/100, "Demo Mode", some (.s t)⟩ ∧
    translateWithDemo (.arr texts) targetLang =
      ⟨.arr (texts.map fun x => x ++ (" (in " ++ targetLang ++ ")")), 85/100, "Demo Mode",
       some (.arr texts)⟩ := by
  constructor
  · simp [translateWithDemo, h]
  · simp [translateWithDemo, h]

/-- C3 witness: the amended statement at target `"xx"`. -/
theorem c3_witness :
    getA demoSuffixes "xx" = none ∧
    translateWithDemo (.s "Take aspirin") "xx" =
      ⟨.s ("Take aspirin" ++ (" (in " ++ "xx" ++ ")")), 85/100, "Demo Mode",
       some (.s "Take aspirin")⟩ ∧
    translateWithDemo (.arr ["Rest", "Take medication"]) "xx" =
      ⟨.arr (["Rest", "Take medication"].map fun x => x ++ (" (in " ++ "xx" ++ ")")), 85/100,
       "Demo Mode", some (.arr ["Rest", "Take medication"])⟩ :=
  ⟨by decide,
   (c3_amended_suffix_fallback "xx" "Take aspirin" ["Rest", "Take medication"] (by decide)).1,
   (c3_amended_suffix_fallback "xx" "Take aspirin" ["Rest", "Take medication"] (by decide)).2⟩

/-- C4 counterexample: on text matching zero dictionary entries the
enhanced-fallback provider succeeds with the untranslated original at
confidence 0.6, and the chain (with the remote method down) returns that
success instead of proceeding to the demo suffix fallback. -/
theorem c4_counterexample :
    translateWithEnhancedFallback (.s "zzz") "es" =
      ⟨.s "zzz", 6/10, "Enhanced Fallback Translation", none⟩ ∧
    (translateP000 (.error "network down") (.s "zzz") "es" "en").1 =
      Except.ok ⟨.s "zzz", 6/10, "Enhanced Fallback Translation", none⟩ ∧
    (translateP000 (.error "network down") (.s "zzz") "es" "en").1 ≠
      Except.ok (translateWithDemo (.s "zzz") "es") := by
  refine ⟨by rfl, by rfl, ?_⟩
  intro h
  have hs := congrArg (fun x => match x with
    | Except.ok r => r.service
    | Except.error _ => "") h
  revert hs
  decide

/-- C4 (amended): the dictionary-fallback provider never fails — whenever
the remote method throws, the chain stops at the enhanced fallback (whose
confidence is 0.6), never reaching the terminal suffix fallback. -/
theorem c4_amended_dictionary_never_fails (e : String) (text : JText)
    (targetLang sourceLang : String) (h : targetLang ≠ sourceLang) :
    (translateP000 (.error e) text targetLang sourceLang).1 =
      Except.ok (translateWithEnhancedFallback text targetLang) ∧
    (translateWithEnhancedFallback text targetLang).confidence = 6/10 := by
  constructor
  · simp [translateP000, h, runMethodsP000, chainRunE]
  · cases text <;> rfl

/-- C4 witness: the amended statement at a concrete unmatched text. -/
theorem c4_witness :
    (("es" : String) ≠ "en") ∧
    (translateP000 (.error "network down") (.s "zzz") "es" "en").1 =
      Except.ok (translateWithEnhancedFallback (.s "zzz") "es") ∧
    (translateWithEnhancedFallback (.s "zzz") "es").confidence = 6/10 :=
  ⟨by decide,
   (c4_amended_dictionary_never_fails "network down" (.s "zzz") "es" "en" (by decide)).1,
   (c4_amended_dictionary_never_fails "network down" (.s "zzz") "es" "en" (by decide)).2⟩

/-- C7: the dictionary of the enhanced fallback is applied longest source
phrase first (`sortedEntries` is length-descending for every dictionary),
so on the overlapping span `"by mouth every 8 hours as needed for pain"`
the long entry is substituted as one unit; and replacement respects word
boundaries: `"painting"` is untouched even though `pain` and `in`
occur inside it. -/
theorem c7_longest_match_priority :
    (∀ dict : List (String × String),
      (sortedEntries dict).Pairwise fun a b => b.1.length ≤ a.1.length) ∧
    applyFallbackDict (fallbackTranslations "es") "by mouth every 8 hours as needed for pain" =
      "por vía oral cada 8 horas según sea necesario para el dolor" ∧
    applyFallbackDict (fallbackTranslations "es") "painting" = "painting" := by
  refine ⟨sortedEntries_pairwise, by rfl, by rfl⟩

/-- C5 counterexample: the structuring engine routes `"Worse, worse"` to
the unstructured branch, whose `instructions` category keeps both
`"Worse"` and `"worse"` — each a case-insensitive substring of the other,
with word-overlap similarity 1 > 0.8 — because `enhanceStructuredData`
deduplicates by exact string equality only. -/
theorem c5_counterexample :
    isJsonString "Worse, worse" = false ∧
    isXmlString "Worse, worse" = false ∧
    parseDischargeDataMP stubJsonBranch stubXmlBranch "Worse, worse" =
      parseUnstructuredText "Worse, worse" ∧
    (parseUnstructuredText "Worse, worse").instructions = ["Worse", "worse"] ∧
    substrCI "Worse" "worse" = true ∧
    isDuplicate005 "Worse" ["worse"] = true ∧
    calculateSimilarity005 (toLowerStr "Worse") (toLowerStr "worse") > 8/10 := by
  refine ⟨by decide, by decide, by rfl, by rfl, by decide, by rfl, ?_⟩
  have h1 : toLowerStr "Worse" = "worse" := by decide
  have h2 : toLowerStr "worse" = "worse" := by decide
  rw [h1, h2]
  have h3 : splitWsRuns "worse" = ["worse"] := by decide
  unfold calculateSimilarity005
  rw [h3]
  norm_num

/-- C5 (amended): after structuring an input that is neither JSON nor
XML-shaped, the five non-medication categories contain no two identical
items (exact duplicates are removed); case-insensitive substring
containment and high word overlap between distinct items may remain. -/
theorem c5_amended_exact_dedup (jsonBranch xmlBranch : String → RecordMP) (raw : String)
    (hj : isJsonString raw = false) (hx : isXmlString raw = false) :
    (parseDischargeDataMP jsonBranch xmlBranch raw).diagnoses.Nodup ∧
    (parseDischargeDataMP jsonBranch xmlBranch raw).instructions.Nodup ∧
    (parseDischargeDataMP jsonBranch xmlBranch raw).returnReasons.Nodup ∧
    (parseDischargeDataMP jsonBranch xmlBranch raw).followUp.Nodup ∧
    (parseDischargeDataMP jsonBranch xmlBranch raw).procedures.Nodup := by
  simp only [parseDischargeDataMP, hj, hx, Bool.false_eq_true, if_false]
  exact ⟨keepFirsts_nodup _, keepFirsts_nodup _, keepFirsts_nodup _,
         keepFirsts_nodup _, keepFirsts_nodup _⟩

/-- C5 witness: the amended statement at the counterexample input. -/
theorem c5_witness :
    isJsonString "Worse, worse" = false ∧
    isXmlString "Worse, worse" = false ∧
    ((parseDischargeDataMP stubJsonBranch stubXmlBranch "Worse, worse").diagnoses.Nodup ∧
     (parseDischargeDataMP stubJsonBranch stubXmlBranch "Worse, worse").instructions.Nodup ∧
     (parseDischargeDataMP stubJsonBranch stubXmlBranch "Worse, worse").returnReasons.Nodup ∧
     (parseDischargeDataMP stubJsonBranch stubXmlBranch "Worse, worse").followUp.Nodup ∧
     (parseDischargeDataMP stubJsonBranch stubXmlBranch "Worse, worse").procedures.Nodup) :=
  ⟨by decide, by decide,
   c5_amended_exact_dedup stubJsonBranch stubXmlBranch "Worse, worse" (by decide) (by decide)⟩

/-- C6 (amended): every input that is neither valid JSON nor XML-shaped
falls back to unstructured text parsing (and hence to a record with every
category present as a possibly-empty list); the parse never throws. -/
theorem c6_amended_fallback_to_unstructured (jsonBranch xmlBranch : String → RecordMP)
    (raw : String) (hj : isJsonString raw = false) (hx : isXmlString raw = false) :
    parseDischargeDataMP jsonBranch xmlBranch raw = parseUnstructuredText raw := by
  simp only [parseDischargeDataMP, hj, hx, Bool.false_eq_true, if_false]

/-- C6 witness: the malformed JSON string of the spec's Scenario B takes
the unstructured branch and yields a well-formed record. -/
theorem c6_witness :
    isJsonString "\x7bbad json" = false ∧
    isXmlString "\x7bbad json" = false ∧
    parseDischargeDataMP stubJsonBranch stubXmlBranch "\x7bbad json" =
      parseUnstructuredText "\x7bbad json" ∧
    (parseUnstructuredText "\x7bbad json").instructions = ["\x7bbad", "json"] :=
  ⟨by decide, by decide,
   c6_amended_fallback_to_unstructured stubJsonBranch stubXmlBranch "\x7bbad json"
     (by decide) (by decide),
   by rfl⟩

/-- C6 counterexample: an input that is not valid JSON but is XML-shaped
is routed to the XML reader, not to unstructured text parsing. -/
theorem c6_counterexample :
    isJsonString "<hello world this is text>" = false ∧
    isXmlString "<hello world this is text>" = true ∧
    parseDischargeDataMP stubJsonBranch stubXmlBranch "<hello world this is text>" =
      stubXmlBranch "<hello world this is text>" ∧
    parseDischargeDataMP stubJsonBranch stubXmlBranch "<hello world this is text>" ≠
      parseUnstructuredText "<hello world this is text>" := by
  refine ⟨by decide, by decide, by rfl, by decide⟩

/-- C8: after a successful translated call, a repeat call with the same
`(sourceLang, targetLang, text)` tuple — whatever its provider outcomes
and arrival time — returns the cached result, invokes zero providers and
leaves the state unchanged. -/
theorem c8_cache_hit_second_call (cfg : TJConfig) (provs1 : TJProviders) (now1 : Nat)
    (st0 : TJState) (text : JText) (targetLang sourceLang : String)
    (r : TranslationResult) (st1 : TJState) (n1 : Nat)
    (h1 : translateTJ cfg provs1 now1 st0 text targetLang sourceLang = (.ok r, st1, n1))
    (h2 : targetLang ≠ sourceLang) :
    ∀ (provs2 : TJProviders) (now2 : Nat),
      translateTJ cfg provs2 now2 st1 text targetLang sourceLang = (.ok r, st1, 0) := by
  intro provs2 now2
  simp only [translateTJ, if_neg h2] at h1 ⊢
  rcases hc : getA st0.cache (cacheKeyTJ text targetLang sourceLang) with _ | r0
  · rw [hc] at h1
    by_cases hr : isRateLimitedTJ st0.rl now1 targetLang
    · rw [if_pos (by simpa using hr)] at h1
      exact absurd (congrArg (fun x => x.1) h1) (by simp)
    · rw [if_neg (by simpa using hr)] at h1
      rcases hch : chainRunE (enabledAttempts cfg provs1) 0 none with ⟨o, n, le⟩
      rw [hch] at h1
      cases o with
      | none => exact absurd (congrArg (fun x => x.1) h1) (by simp)
      | some r2 =>
        simp only [Prod.mk.injEq, Except.ok.injEq] at h1
        obtain ⟨hr2, hst, _⟩ := h1
        subst hr2
        rw [← hst, getA_setA_self]
  · rw [hc] at h1
    simp only [Prod.mk.injEq, Except.ok.injEq] at h1
    obtain ⟨hr0, hst, _⟩ := h1
    subst hr0
    rw [← hst, hc]

/-- C8 witness: a concrete first call through the google provider caches
its result; the repeat call is served from the cache with failing
providers and zero invocations. -/
theorem c8_witness :
    translateTJ ⟨"G", "", "", ""⟩
        ⟨.ok ⟨.s "hola", 9/10, "google", some (.s "hi")⟩, .error "m", .error "d", .error "b"⟩
        0 ⟨[], []⟩ (.s "hi") "es" "en"
      = (.ok ⟨.s "hola", 9/10, "google", some (.s "hi")⟩,
         ⟨[("en-es-\"hi\"", ⟨.s "hola", 9/10, "google", some (.s "hi")⟩)],
          [("rate_limit_es", 0)]⟩, 1) ∧
    (("es" : String) ≠ "en") ∧
    translateTJ ⟨"G", "", "", ""⟩ ⟨.error "g", .error "m", .error "d", .error "b"⟩ 500
        ⟨[("en-es-\"hi\"", ⟨.s "hola", 9/10, "google", some (.s "hi")⟩)],
         [("rate_limit_es", 0)]⟩ (.s "hi") "es" "en"
      = (.ok ⟨.s "hola", 9/10, "google", some (.s "hi")⟩,
         ⟨[("en-es-\"hi\"", ⟨.s "hola", 9/10, "google", some (.s "hi")⟩)],
          [("rate_limit_es", 0)]⟩, 0) :=
  ⟨by rfl, by decide,
   c8_cache_hit_second_call ⟨"G", "", "", ""⟩
     ⟨.ok ⟨.s "hola", 9/10, "google", some (.s "hi")⟩, .error "m", .error "d", .error "b"⟩
     0 ⟨[], []⟩ (.s "hi") "es" "en"
     ⟨.s "hola", 9/10, "google", some (.s "hi")⟩
     ⟨[("en-es-\"hi\"", ⟨.s "hola", 9/10, "google", some (.s "hi")⟩)], [("rate_limit_es", 0)]⟩
     1 (by rfl) (by decide) ⟨.error "g", .error "m", .error "d", .error "b"⟩ 500⟩

/-- C9 (amended): a request that is neither a same-language no-op nor a
cache hit, arriving inside the 1-second window of its target language,
fails fast with the rate-limit error, invokes no provider and leaves the
state unchanged (no queuing, no automatic retry). -/
theorem c9_amended_rate_limit_fails_fast (cfg : TJConfig) (provs : TJProviders)
    (now : Nat) (st : TJState) (text : JText) (targetLang sourceLang : String)
    (h2 : targetLang ≠ sourceLang)
    (hc : getA st.cache (cacheKeyTJ text targetLang sourceLang) = none)
    (hr : isRateLimitedTJ st.rl now targetLang = true) :
    translateTJ cfg provs now st text targetLang sourceLang =
      (.error "Rate limit exceeded. Please wait before making another request.", st, 0) := by
  simp only [translateTJ, if_neg h2, hc, hr, if_true]

/-- C9 witness: a concrete uncached request 500 ms after the recorded
timestamp throws the rate-limit error. -/
theorem c9_witness :
    (("es" : String) ≠ "en") ∧
    getA (TJState.cache ⟨[], [("rate_limit_es", 1000)]⟩) (cacheKeyTJ (.s "hi") "es" "en") = none ∧
    isRateLimitedTJ (TJState.rl ⟨[], [("rate_limit_es", 1000)]⟩) 1500 "es" = true ∧
    translateTJ ⟨"G", "", "", ""⟩ ⟨.ok ⟨.s "hola", 9/10, "google", some (.s "hi")⟩,
        .error "m", .error "d", .error "b"⟩ 1500 ⟨[], [("rate_limit_es", 1000)]⟩
        (.s "hi") "es" "en"
      = (.error "Rate limit exceeded. Please wait before making another request.",
         ⟨[], [("rate_limit_es", 1000)]⟩, 0) :=
  ⟨by decide, by decide, by decide,
   c9_amended_rate_limit_fails_fast ⟨"G", "", "", ""⟩
     ⟨.ok ⟨.s "hola", 9/10, "google", some (.s "hi")⟩, .error "m", .error "d", .error "b"⟩
     1500 ⟨[], [("rate_limit_es", 1000)]⟩ (.s "hi") "es" "en"
     (by decide) (by decide) (by decide)⟩

/-- C9 counterexample: inside the 1-second window of `"es"`, a cached
request and a same-language request both resolve normally instead of
throwing the rate-limit error. -/
theorem c9_counterexample :
    isRateLimitedTJ [("rate_limit_es", 1000)] 1500 "es" = true ∧
    translateTJ ⟨"G", "", "", ""⟩ ⟨.error "g", .error "m", .error "d", .error "b"⟩ 1500
        ⟨[("en-es-\"hi\"", ⟨.s "hola", 9/10, "google", some (.s "hi")⟩)],
         [("rate_limit_es", 1000)]⟩ (.s "hi") "es" "en"
      = (.ok ⟨.s "hola", 9/10, "google", some (.s "hi")⟩,
         ⟨[("en-es-\"hi\"", ⟨.s "hola", 9/10, "google", some (.s "hi")⟩)],
          [("rate_limit_es", 1000)]⟩, 0) ∧
    translateTJ ⟨"G", "", "", ""⟩ ⟨.error "g", .error "m", .error "d", .error "b"⟩ 1500
        ⟨[], [("rate_limit_es", 1000)]⟩ (.s "hi") "es" "es"
      = (.ok ⟨.s "hi", 1, "none", some (.s "hi")⟩, ⟨[], [("rate_limit_es", 1000)]⟩, 0) := by
  refine ⟨by decide, by rfl, by rfl⟩

/-- C10: whatever the pattern-extraction phase produced, after the final
cleanup of the enhanced parser every category holds at most 10 items,
each longer than 5 characters and none a bare filler word. -/
theorem c10_final_cleanup_caps (patternPhase : String → RecordMP) (rawData : String) :
    catProps (parse005 patternPhase rawData).diagnoses ∧
    catProps (parse005 patternPhase rawData).medications ∧
    catProps (parse005 patternPhase rawData).instructions ∧
    catProps (parse005 patternPhase rawData).returnReasons ∧
    catProps (parse005 patternPhase rawData).followUp ∧
    catProps (parse005 patternPhase rawData).procedures := by
  by_cases h : rawData = ""
  · simp only [parse005, h, if_true]
    refine ⟨?_, ?_, ?_, ?_, ?_, ?_⟩ <;>
      exact ⟨by simp [emptyRecordMP], by simp [emptyRecordMP]⟩
  · simp only [parse005, if_neg h]
    exact ⟨cleanupCat005_props _, cleanupCat005_props _, cleanupCat005_props _,
           cleanupCat005_props _, cleanupCat005_props _, cleanupCat005_props _⟩
